import Mathlib

/-!
Verification of the `node` package of go-craq (`src/node/node.go`).

The Go code is embedded shallowly:

* `Item` mirrors `node.Item`; byte slices become `List Nat`.
* The Go `map[string][]uint64` propagate request becomes an association
  list built exactly as the Go loop builds the map (`addVersion` is the
  `req[item.Key] = append(req[item.Key], item.Version)` step).
* Side effects (calls to the store, RPC calls to neighbors, opening and
  closing connections) are recorded in a trace of `Event`s; the results
  of external calls (transport, coordinator, store) are supplied by an
  `Env` of oracles, so every function is a pure function from `Env` and
  state to `Except`-result, trace and new state, exactly following the
  control flow of the Go source.
* `errgroup` in `ListenAndServe` is modelled with an explicit flag
  saying which of the two goroutines records its error first.
-/

set_option autoImplicit false

namespace GoCraq

/-- Mirrors `node.Item`: one stored version of a key. -/
structure Item where
  key : String
  version : Nat
  committed : Bool
  value : List Nat
  deriving DecidableEq, Repr

/-- An item as it appears in a `craqrpc.PropagateResponse`
(version, committed flag, value). -/
structure PItem where
  version : Nat
  committed : Bool
  value : List Nat
  deriving DecidableEq, Repr

/-- Mirrors `craqrpc.PropagateRequest`: map from key to the versions the caller
already holds, represented as an association list in insertion order. -/
abbrev PropagateRequest := List (String × List Nat)

/-- Mirrors `craqrpc.PropagateResponse`: map from key to full items, represented as
an association list in the (arbitrary but fixed) iteration order. -/
abbrev PropagateResponse := List (String × List PItem)

/-- Mirrors `craqrpc.NodeMeta`, the reply of the coordinator to `AddNode`. -/
structure NodeMeta where
  isHead : Bool
  isTail : Bool
  tail : String
  prev : String
  deriving DecidableEq, Repr

/-- Mirrors `craqrpc.NeighborPos`. -/
inductive NeighborPos where
  | prev
  | next
  | tail
  deriving DecidableEq, Repr

/-- Mirrors `node.neighbor`: a transport client (identified by a numeric
handle, `none` = nil interface) and a path. -/
structure Neighbor where
  client : Option Nat
  path : String
  deriving DecidableEq, Repr

/-- The `n.neighbors` map. A Go map lookup of an absent position yields the
zero value `neighbor{}`, so the map is total with default `⟨none, ""⟩`;
a record per position makes "at most one record per position" structural. -/
structure Neighbors where
  prev : Neighbor
  next : Neighbor
  tail : Neighbor
  deriving DecidableEq, Repr

def getNbr (ns : Neighbors) : NeighborPos → Neighbor
  | .prev => ns.prev
  | .next => ns.next
  | .tail => ns.tail

def setNbr (ns : Neighbors) : NeighborPos → Neighbor → Neighbors
  | .prev, nb => { ns with prev := nb }
  | .next, nb => { ns with next := nb }
  | .tail, nb => { ns with tail := nb }

/-- The mutable fields of `node.Node` that the embedded functions touch. -/
structure NodeState where
  neighbors : Neighbors
  latest : List (String × Nat)
  cdrPath : String
  cdr : Option Nat
  path : String
  isHead : Bool
  isTail : Bool
  deriving DecidableEq, Repr

/-- Observable side effects of the node, in program order. -/
inductive Event where
  | connect (path : String)
  | callAddNode (path : String)
  | closeClient (id : Nat)
  | callFwdPropagate (req : PropagateRequest)
  | callBackPropagate (req : PropagateRequest)
  | storeWrite (key : String) (value : List Nat) (version : Nat)
  | storeCommit (key : String) (version : Nat)
  deriving DecidableEq, Repr

/-- Oracles for every external call the node makes: the transport, the
coordinator, the RPC endpoints of the predecessor and the storage backend.
Errors are represented by their message strings. -/
structure Env where
  connect : String → Except String Nat
  addNode : Except String NodeMeta
  allDirty : Except String (List Item)
  allCommitted : Except String (List Item)
  fwdCall : PropagateRequest → Except String PropagateResponse
  backCall : PropagateRequest → Except String PropagateResponse
  write : String → List Nat → Nat → Except String Unit
  commit : String → Nat → Except String Unit

/-- One step of `propagateRequestFromItems`:
`req[item.Key] = append(req[item.Key], item.Version)` on the assoc list. -/
def addVersion : PropagateRequest → String → Nat → PropagateRequest
  | [], k, v => [(k, [v])]
  | (k', vs) :: rest, k, v =>
    if k' = k then (k', vs ++ [v]) :: rest
    else (k', vs) :: addVersion rest k v

/-- Mirrors `propagateRequestFromItems`. -/
def propagateRequestFromItems (items : List Item) : PropagateRequest :=
  items.foldl (fun req it => addVersion req it.key it.version) []

/-- Lookup in a `PropagateRequest`; an absent key has no versions. -/
def lookupReq : PropagateRequest → String → List Nat
  | [], _ => []
  | (k', vs) :: rest, k => if k' = k then vs else lookupReq rest k

/-- The inner loop of `writePropagated` for a single key. -/
def writeItems (w : String → List Nat → Nat → Except String Unit)
    (key : String) : List PItem → Except String Unit × List Event
  | [] => (.ok (), [])
  | it :: rest =>
    match w key it.value it.version with
    | .error e => (.error e, [Event.storeWrite key it.value it.version])
    | .ok _ =>
      let r := writeItems w key rest
      (r.1, Event.storeWrite key it.value it.version :: r.2)

/-- Mirrors `(*Node).writePropagated`: save items from the reply to the
store, returning on the first failing `Store.Write`. -/
def writePropagated (w : String → List Nat → Nat → Except String Unit) :
    PropagateResponse → Except String Unit × List Event
  | [] => (.ok (), [])
  | (k, its) :: rest =>
    let r1 := writeItems w k its
    match r1.1 with
    | .error e => (.error e, r1.2)
    | .ok _ =>
      let r := writePropagated w rest
      (r.1, r1.2 ++ r.2)

/-- The inner loop of `commitPropagated` for a single key. -/
def commitItems (c : String → Nat → Except String Unit)
    (key : String) : List PItem → Except String Unit × List Event
  | [] => (.ok (), [])
  | it :: rest =>
    match c key it.version with
    | .error e => (.error e, [Event.storeCommit key it.version])
    | .ok _ =>
      let r := commitItems c key rest
      (r.1, Event.storeCommit key it.version :: r.2)

/-- Mirrors `(*Node).commitPropagated`: commit items from the reply to the
store, returning on the first failing `Store.Commit`. -/
def commitPropagated (c : String → Nat → Except String Unit) :
    PropagateResponse → Except String Unit × List Event
  | [] => (.ok (), [])
  | (k, its) :: rest =>
    let r1 := commitItems c k its
    match r1.1 with
    | .error e => (.error e, r1.2)
    | .ok _ =>
      let r := commitPropagated c rest
      (r.1, r1.2 ++ r.2)

/-- Mirrors `(*Node).requestFwdPropagation`: get `AllDirty`, build the
request, call `RPC.FwdPropagate` on the predecessor, write the reply. -/
def requestFwdPropagation (env : Env) : Except String Unit × List Event :=
  match env.allDirty with
  | .error e => (.error e, [])
  | .ok dirty =>
    let args := propagateRequestFromItems dirty
    match env.fwdCall args with
    | .error e => (.error e, [Event.callFwdPropagate args])
    | .ok reply =>
      let r := writePropagated env.write reply
      (r.1, Event.callFwdPropagate args :: r.2)

/-- Mirrors `(*Node).requestBackPropagation`: get `AllCommitted`, build the
request, call `RPC.BackPropagate` on the predecessor, commit the reply. -/
def requestBackPropagation (env : Env) : Except String Unit × List Event :=
  match env.allCommitted with
  | .error e => (.error e, [])
  | .ok committed =>
    let args := propagateRequestFromItems committed
    match env.backCall args with
    | .error e => (.error e, [Event.callBackPropagate args])
    | .ok reply =>
      let r := commitPropagated env.commit reply
      (r.1, Event.callBackPropagate args :: r.2)

/-- Mirrors `(*Node).fullPropagate`: forward propagation, then, only if it
succeeded, back propagation. -/
def fullPropagate (env : Env) : Except String Unit × List Event :=
  let f := requestFwdPropagation env
  match f.1 with
  | .error e => (.error e, f.2)
  | .ok _ =>
    let b := requestBackPropagation env
    (b.1, f.2 ++ b.2)

/-- Mirrors `(*Node).connectToNode`: connect via the transport, close the
currently connected neighbor at that position if any, then install the new
record. -/
def connectToNode (env : Env) (s : NodeState) (path : String)
    (pos : NeighborPos) : Except String Unit × List Event × NodeState :=
  match env.connect path with
  | .error e => (.error e, [Event.connect path], s)
  | .ok client =>
    let nbr := getNbr s.neighbors pos
    let closeTr : List Event :=
      match nbr.client with
      | some id => [Event.closeClient id]
      | none => []
    (.ok (), Event.connect path :: closeTr,
      { s with neighbors := setNbr s.neighbors pos ⟨some client, path⟩ })

/-- The `// Connect to tail` step of `ConnectToCoordinator`: skipped when
the reply marks this node as tail. -/
def handleTail (env : Env) (reply : NodeMeta) (s : NodeState) :
    Except String Unit × List Event × NodeState :=
  if reply.isTail then (.ok (), [], s)
  else connectToNode env s reply.tail NeighborPos.tail

/-- The `// Connect to predecessor` step of `ConnectToCoordinator`:
if the reply names a predecessor, connect to it and run `fullPropagate`;
otherwise close the previous predecessor connection if one was recorded
(Go would panic on a nil client there, modelled as an error). -/
def handlePrev (env : Env) (reply : NodeMeta) (s : NodeState) :
    Except String Unit × List Event × NodeState :=
  if reply.prev ≠ "" then
    match connectToNode env s reply.prev NeighborPos.prev with
    | (.error e, tr, s2) => (.error e, tr, s2)
    | (.ok _, tr, s2) =>
      let pr := fullPropagate env
      (pr.1, tr ++ pr.2, s2)
  else
    if (getNbr s.neighbors NeighborPos.prev).path ≠ "" then
      match (getNbr s.neighbors NeighborPos.prev).client with
      | some id => (.ok (), [Event.closeClient id], s)
      | none => (.error "panic: Close on nil client", [], s)
    else (.ok (), [], s)

/-- Mirrors `(*Node).ConnectToCoordinator`: connect to the coordinator,
announce self via `RPC.AddNode`, install the role bits and the tail record
(`n.neighbors[NeighborPosTail] = neighbor{path: reply.Tail}`), then the
tail and predecessor steps. -/
def ConnectToCoordinator (env : Env) (s : NodeState) :
    Except String Unit × List Event × NodeState :=
  match env.connect s.cdrPath with
  | .error e => (.error e, [Event.connect s.cdrPath], s)
  | .ok cdrClient =>
    let s1 : NodeState := { s with cdr := some cdrClient }
    let tr0 : List Event := [Event.connect s.cdrPath, Event.callAddNode s1.path]
    match env.addNode with
    | .error e => (.error e, tr0, s1)
    | .ok reply =>
      let s2 : NodeState := { s1 with
        isHead := reply.isHead
        isTail := reply.isTail
        neighbors := setNbr s1.neighbors NeighborPos.tail ⟨none, reply.tail⟩ }
      let t := handleTail env reply s2
      match t.1 with
      | .error e => (.error e, tr0 ++ t.2.1, t.2.2)
      | .ok _ =>
        let h := handlePrev env reply t.2.2
        (h.1, tr0 ++ t.2.1 ++ h.2.1, h.2.2)

/-- Mirrors `node.New`: fresh empty `latest` map, empty neighbor records,
paths from the options. -/
def New (path cdrPath : String) : NodeState :=
  { neighbors := ⟨⟨none, ""⟩, ⟨none, ""⟩, ⟨none, ""⟩⟩
    latest := []
    cdrPath := cdrPath
    cdr := none
    path := path
    isHead := false
    isTail := false }

/-- The error string of `http.ErrServerClosed`, returned by `http.Server.ListenAndServe` after
`Shutdown`. -/
def ErrServerClosed : String := "http: Server closed"

/-- Mirrors `(*Node).ListenAndServe`. Two goroutines run in an
`errgroup`: the HTTP server, and the coordinator-connect task that calls
`server.Shutdown` and returns the error when `ConnectToCoordinator`
fails. `errgroup.Wait` returns the first recorded non-nil error;
`serverFirst` says whether the server goroutine (returning
`http.ErrServerClosed` once shut down) records its error before the
coordinator goroutine does. Result: the value `Wait` returns (`none` when
both goroutines keep running, i.e. the call blocks), and whether
`server.Shutdown` was called. -/
def ListenAndServe (env : Env) (s : NodeState) (serverFirst : Bool) :
    Option (Except String Unit) × Bool :=
  match (ConnectToCoordinator env s).1 with
  | .error e =>
    (some (.error (if serverFirst then ErrServerClosed else e)), true)
  | .ok _ => (none, false)

/-- Events belonging to forward propagation: the `RPC.FwdPropagate` call
and the dirty `Store.Write`s of its reply. -/
def isFwdEvent : Event → Bool
  | .callFwdPropagate _ => true
  | .storeWrite _ _ _ => true
  | _ => false

/-- Events belonging to back propagation: the `RPC.BackPropagate` call and
the `Store.Commit`s of its reply. -/
def isBackEvent : Event → Bool
  | .callBackPropagate _ => true
  | .storeCommit _ _ => true
  | _ => false

def isFwdCallEvt : Event → Bool
  | .callFwdPropagate _ => true
  | _ => false

/-- Whether a trace contains an `RPC.FwdPropagate` call, i.e. whether the
catch-up protocol was entered. -/
def hasFwdCall (tr : List Event) : Bool :=
  tr.any isFwdCallEvt

instance {ε α : Type} [DecidableEq ε] [DecidableEq α] :
    DecidableEq (Except ε α) := fun a b =>
  match a, b with
  | .error e1, .error e2 =>
    if h : e1 = e2 then .isTrue (by rw [h])
    else .isFalse (fun hh => h (Except.error.injEq .. ▸ hh))
  | .ok a1, .ok a2 =>
    if h : a1 = a2 then .isTrue (by rw [h])
    else .isFalse (fun hh => h (Except.ok.injEq .. ▸ hh))
  | .error _, .ok _ => .isFalse (fun hh => Except.noConfusion hh)
  | .ok _, .error _ => .isFalse (fun hh => Except.noConfusion hh)

/-- A Go map read of `n.latest[key]`: 0 when absent. -/
def lookupLatest : List (String × Nat) → String → Nat
  | [], _ => 0
  | (k', v) :: rest, k => if k' = k then v else lookupLatest rest k

/-- The value of `n.latest[key]` in a node state. -/
def latestOf (s : NodeState) (k : String) : Nat :=
  lookupLatest s.latest k

/-- The maximum version a key has in `AllDirty() ∪ AllCommitted()`. -/
def maxVersionFor (dirty committed : List Item) (k : String) : Nat :=
  ((dirty ++ committed).filter (fun it => decide (it.key = k))).foldl
    (fun m it => max m it.version) 0

/-- The store event `writePropagated` performs for one reply item. -/
def writeEvt (k : String) (it : PItem) : Event :=
  .storeWrite k it.value it.version

/-- The store event `commitPropagated` performs for one reply item. -/
def commitEvt (k : String) (it : PItem) : Event :=
  .storeCommit k it.version

/-- All the `Store.Write` events a reply induces, in iteration order. -/
def writeEventsOf (reply : PropagateResponse) : List Event :=
  reply.foldr (fun p acc => p.2.map (writeEvt p.1) ++ acc) []

/-- All the `Store.Commit` events a reply induces, in iteration order. -/
def commitEventsOf (reply : PropagateResponse) : List Event :=
  reply.foldr (fun p acc => p.2.map (commitEvt p.1) ++ acc) []

/-- A trivial environment in which forward propagation fails at
`AllDirty`. -/
def envC1w : Env :=
  { connect := fun _ => .ok 0
    addNode := .ok ⟨false, false, "", ""⟩
    allDirty := .error "x"
    allCommitted := .ok []
    fwdCall := fun _ => .ok []
    backCall := fun _ => .ok []
    write := fun _ _ _ => .ok ()
    commit := fun _ _ => .ok () }

/-- Environment whose coordinator reports the predecessor path `p`. -/
def envC2 : Env :=
  { connect := fun _ => .ok 1
    addNode := .ok ⟨false, false, "t", "p"⟩
    allDirty := .ok []
    allCommitted := .ok []
    fwdCall := fun _ => .ok []
    backCall := fun _ => .ok []
    write := fun _ _ _ => .ok ()
    commit := fun _ _ => .ok () }

/-- A node state that is already connected to the predecessor at path
`p` — the same path the coordinator of `envC2` reports. -/
def sC2 : NodeState :=
  { New "a" "c" with neighbors := ⟨⟨some 5, "p"⟩, ⟨none, ""⟩, ⟨none, ""⟩⟩ }

/-- The dirty set of the store in the `C3` scenario. -/
def dirtyC3 : List Item := [⟨"k", 3, false, [7]⟩]

/-- Environment whose store holds a dirty version 3 of key `k`. -/
def envC3 : Env :=
  { connect := fun _ => .ok 1
    addNode := .ok ⟨false, true, "t", ""⟩
    allDirty := .ok dirtyC3
    allCommitted := .ok []
    fwdCall := fun _ => .ok []
    backCall := fun _ => .ok []
    write := fun _ _ _ => .ok ()
    commit := fun _ _ => .ok () }

/-- Items with a repeated key, for exercising the request construction. -/
def itemsC4 : List Item :=
  [⟨"k", 1, false, []⟩, ⟨"j", 2, true, []⟩, ⟨"k", 3, false, []⟩]

/-- Environment in which the dirty set of the store is `itemsC4`. -/
def envC4w : Env :=
  { connect := fun _ => .ok 1
    addNode := .ok ⟨false, true, "t", ""⟩
    allDirty := .ok itemsC4
    allCommitted := .ok itemsC4
    fwdCall := fun _ => .ok []
    backCall := fun _ => .ok []
    write := fun _ _ _ => .ok ()
    commit := fun _ _ => .ok () }

/-- A one-item forward-propagation reply. -/
def replyC5 : PropagateResponse := [("k", [⟨1, false, [9]⟩])]

/-- Environment whose predecessor answers forward propagation with
`replyC5`. -/
def envC5w : Env :=
  { connect := fun _ => .ok 1
    addNode := .ok ⟨false, true, "t", ""⟩
    allDirty := .ok []
    allCommitted := .ok []
    fwdCall := fun _ => .ok replyC5
    backCall := fun _ => .ok []
    write := fun _ _ _ => .ok ()
    commit := fun _ _ => .ok () }

/-- Environment whose predecessor answers back propagation with
`replyC5`. -/
def envC6w : Env :=
  { connect := fun _ => .ok 1
    addNode := .ok ⟨false, true, "t", ""⟩
    allDirty := .ok []
    allCommitted := .ok []
    fwdCall := fun _ => .ok []
    backCall := fun _ => .ok replyC5
    write := fun _ _ _ => .ok ()
    commit := fun _ _ => .ok () }

/-- Environment that replaces the tail path with `t2` while this node is
the tail. -/
def envC7 : Env :=
  { connect := fun _ => .ok 1
    addNode := .ok ⟨false, true, "t2", ""⟩
    allDirty := .ok []
    allCommitted := .ok []
    fwdCall := fun _ => .ok []
    backCall := fun _ => .ok []
    write := fun _ _ _ => .ok ()
    commit := fun _ _ => .ok () }

/-- A node state with an open connection (handle 7) to the tail at `t`. -/
def sC7 : NodeState :=
  { New "a" "c" with neighbors := ⟨⟨none, ""⟩, ⟨none, ""⟩, ⟨some 7, "t"⟩⟩ }

/-- Environment in which the coordinator connection fails. -/
def envC8 : Env :=
  { connect := fun _ => .error "boom"
    addNode := .ok ⟨false, true, "t", ""⟩
    allDirty := .ok []
    allCommitted := .ok []
    fwdCall := fun _ => .ok []
    backCall := fun _ => .ok []
    write := fun _ _ _ => .ok ()
    commit := fun _ _ => .ok () }

/-- A store write oracle failing exactly at version 2. -/
def wC9 : String → List Nat → Nat → Except String Unit :=
  fun _ _ v => if v = 2 then .error "bad" else .ok ()

/-- A store commit oracle failing exactly at version 2. -/
def cC9 : String → Nat → Except String Unit :=
  fun _ v => if v = 2 then .error "bad" else .ok ()

/-- Environment whose coordinator marks this node as tail. -/
def envC10 : Env :=
  { connect := fun _ => .ok 4
    addNode := .ok ⟨true, true, "t", ""⟩
    allDirty := .ok []
    allCommitted := .ok []
    fwdCall := fun _ => .ok []
    backCall := fun _ => .ok []
    write := fun _ _ _ => .ok ()
    commit := fun _ _ => .ok () }

/-- Environment whose coordinator marks this node as a non-tail node. -/
def envC10b : Env :=
  { connect := fun _ => .ok 4
    addNode := .ok ⟨false, false, "t", ""⟩
    allDirty := .ok []
    allCommitted := .ok []
    fwdCall := fun _ => .ok []
    backCall := fun _ => .ok []
    write := fun _ _ _ => .ok ()
    commit := fun _ _ => .ok () }

theorem writeItems_noBack (w : String → List Nat → Nat → Except String Unit)
    (key : String) :
    ∀ its, ∀ e ∈ (writeItems w key its).2, isBackEvent e = false := by
  intro its
  induction its with
  | nil => intro e he; simp [writeItems] at he
  | cons it rest ih =>
    intro e he
    cases h : w key it.value it.version with
    | error er =>
      simp [writeItems, h] at he
      subst he; rfl
    | ok u =>
      simp [writeItems, h] at he
      rcases he with he | he
      · subst he; rfl
      · exact ih e he

theorem writePropagated_noBack
    (w : String → List Nat → Nat → Except String Unit) :
    ∀ reply, ∀ e ∈ (writePropagated w reply).2, isBackEvent e = false := by
  intro reply
  induction reply with
  | nil => intro e he; simp [writePropagated] at he
  | cons p rest ih =>
    intro e he
    obtain ⟨k, its⟩ := p
    cases h : (writeItems w k its).1 with
    | error er =>
      simp [writePropagated, h] at he
      exact writeItems_noBack w k its e he
    | ok u =>
      simp [writePropagated, h, List.mem_append] at he
      rcases he with he | he
      · exact writeItems_noBack w k its e he
      · exact ih e he

theorem commitItems_noFwd (c : String → Nat → Except String Unit)
    (key : String) :
    ∀ its, ∀ e ∈ (commitItems c key its).2, isFwdEvent e = false := by
  intro its
  induction its with
  | nil => intro e he; simp [commitItems] at he
  | cons it rest ih =>
    intro e he
    cases h : c key it.version with
    | error er =>
      simp [commitItems, h] at he
      subst he; rfl
    | ok u =>
      simp [commitItems, h] at he
      rcases he with he | he
      · subst he; rfl
      · exact ih e he

theorem commitPropagated_noFwd (c : String → Nat → Except String Unit) :
    ∀ reply, ∀ e ∈ (commitPropagated c reply).2, isFwdEvent e = false := by
  intro reply
  induction reply with
  | nil => intro e he; simp [commitPropagated] at he
  | cons p rest ih =>
    intro e he
    obtain ⟨k, its⟩ := p
    cases h : (commitItems c k its).1 with
    | error er =>
      simp [commitPropagated, h] at he
      exact commitItems_noFwd c k its e he
    | ok u =>
      simp [commitPropagated, h, List.mem_append] at he
      rcases he with he | he
      · exact commitItems_noFwd c k its e he
      · exact ih e he

theorem requestFwdPropagation_noBack (env : Env) :
    ∀ e ∈ (requestFwdPropagation env).2, isBackEvent e = false := by
  intro e he
  unfold requestFwdPropagation at he
  cases hd : env.allDirty with
  | error er => simp [hd] at he
  | ok dirty =>
    simp only [hd] at he
    cases hc : env.fwdCall (propagateRequestFromItems dirty) with
    | error er =>
      simp [hc] at he
      subst he; rfl
    | ok reply =>
      simp [hc] at he
      rcases he with he | he
      · subst he; rfl
      · exact writePropagated_noBack env.write _ e he

theorem requestBackPropagation_noFwd (env : Env) :
    ∀ e ∈ (requestBackPropagation env).2, isFwdEvent e = false := by
  intro e he
  unfold requestBackPropagation at he
  cases hd : env.allCommitted with
  | error er => simp [hd] at he
  | ok committed =>
    simp only [hd] at he
    cases hc : env.backCall (propagateRequestFromItems committed) with
    | error er =>
      simp [hc] at he
      subst he; rfl
    | ok reply =>
      simp [hc] at he
      rcases he with he | he
      · subst he; rfl
      · exact commitPropagated_noFwd env.commit _ e he

/-- C1: in `fullPropagate`, forward propagation (the `FwdPropagate` request
and the writes of its reply) always comes first in the effect trace; every
back-propagation effect comes after all of it; and when forward propagation
returns an error, no back-propagation effect happens at all. -/
theorem C1_fullPropagate_order (env : Env) :
    ∃ tb : List Event,
      (fullPropagate env).2 = (requestFwdPropagation env).2 ++ tb ∧
      (∀ e ∈ (requestFwdPropagation env).2, isBackEvent e = false) ∧
      (∀ e ∈ tb, isFwdEvent e = false) ∧
      (∀ er, (requestFwdPropagation env).1 = .error er → tb = []) := by
  cases hf : (requestFwdPropagation env).1 with
  | error e =>
    refine ⟨[], by simp [fullPropagate, hf], requestFwdPropagation_noBack env,
      by simp, fun _ _ => rfl⟩
  | ok u =>
    refine ⟨(requestBackPropagation env).2, by simp [fullPropagate, hf],
      requestFwdPropagation_noBack env, requestBackPropagation_noFwd env,
      fun er h => ?_⟩
    simp at h

theorem lookupReq_addVersion :
    ∀ (req : PropagateRequest) (k0 k : String) (v : Nat),
      lookupReq (addVersion req k0 v) k =
        if k0 = k then lookupReq req k ++ [v] else lookupReq req k := by
  intro req
  induction req with
  | nil =>
    intro k0 k v
    by_cases h : k0 = k <;> simp [addVersion, lookupReq, h]
  | cons p rest ih =>
    intro k0 k v
    obtain ⟨a, vs⟩ := p
    by_cases h1 : a = k0
    · subst h1
      by_cases h2 : a = k <;> simp [addVersion, lookupReq, h2]
    · by_cases h2 : a = k
      · subst h2
        have h3 : ¬k0 = a := fun hh => h1 hh.symm
        simp [addVersion, lookupReq, h1, h3]
      · simp [addVersion, lookupReq, h1, h2, ih]

theorem keys_addVersion :
    ∀ (req : PropagateRequest) (k : String) (v : Nat),
      (addVersion req k v).map Prod.fst =
        if k ∈ req.map Prod.fst then req.map Prod.fst
        else req.map Prod.fst ++ [k] := by
  intro req
  induction req with
  | nil => intro k v; simp [addVersion]
  | cons p rest ih =>
    intro k v
    obtain ⟨a, vs⟩ := p
    by_cases h1 : a = k
    · subst h1; simp [addVersion]
    · have h1' : ¬k = a := fun hh => h1 hh.symm
      by_cases h2 : k ∈ rest.map Prod.fst <;>
        simp [addVersion, h1, h1', h2, ih]

theorem nodupKeys_addVersion (req : PropagateRequest) (k : String) (v : Nat)
    (h : (req.map Prod.fst).Nodup) :
    ((addVersion req k v).map Prod.fst).Nodup := by
  rw [keys_addVersion]
  by_cases h2 : k ∈ req.map Prod.fst
  · simpa [h2] using h
  · simp only [h2, if_false]
    rw [List.nodup_append]
    refine ⟨h, List.nodup_singleton k, ?_⟩
    intro a ha hak
    simp at hak
    exact h2 (hak ▸ ha)

theorem mem_keys_addVersion (req : PropagateRequest) (k : String) (v : Nat)
    (x : String) (hx : x ∈ (addVersion req k v).map Prod.fst) :
    x ∈ req.map Prod.fst ∨ x = k := by
  rw [keys_addVersion] at hx
  by_cases h : k ∈ req.map Prod.fst
  · rw [if_pos h] at hx
    exact Or.inl hx
  · rw [if_neg h] at hx
    rcases List.mem_append.mp hx with hx2 | hx2
    · exact Or.inl hx2
    · exact Or.inr (List.mem_singleton.mp hx2)

theorem lookupReq_foldl :
    ∀ (items : List Item) (req : PropagateRequest) (k : String),
      lookupReq (items.foldl (fun r it => addVersion r it.key it.version) req) k =
        lookupReq req k ++
          (items.filter (fun it => decide (it.key = k))).map Item.version := by
  intro items
  induction items with
  | nil => intro req k; simp
  | cons it rest ih =>
    intro req k
    simp only [List.foldl_cons]
    rw [ih, lookupReq_addVersion]
    by_cases h : it.key = k <;>
      simp [h, List.filter_cons, List.append_assoc]

theorem nodupKeys_foldl :
    ∀ (items : List Item) (req : PropagateRequest),
      (req.map Prod.fst).Nodup →
      (((items.foldl (fun r it => addVersion r it.key it.version) req)).map
        Prod.fst).Nodup := by
  intro items
  induction items with
  | nil => intro req h; simpa using h
  | cons it rest ih =>
    intro req h
    simp only [List.foldl_cons]
    exact ih _ (nodupKeys_addVersion _ _ _ h)

theorem mem_keys_foldl :
    ∀ (items : List Item) (req : PropagateRequest) (x : String),
      x ∈ ((items.foldl (fun r it => addVersion r it.key it.version) req)).map
        Prod.fst →
      x ∈ req.map Prod.fst ∨ x ∈ items.map Item.key := by
  intro items
  induction items with
  | nil =>
    intro req x hx
    simp only [List.foldl_nil] at hx
    exact Or.inl hx
  | cons it rest ih =>
    intro req x hx
    simp only [List.foldl_cons] at hx
    rcases ih _ _ hx with hx2 | hx2
    · rcases mem_keys_addVersion _ _ _ _ hx2 with hx3 | hx3
      · exact Or.inl hx3
      · exact Or.inr (by rw [List.map_cons, hx3]; exact List.mem_cons_self _ _)
    · exact Or.inr (by rw [List.map_cons]; exact List.mem_cons_of_mem _ hx2)

/-- C4: `propagateRequestFromItems` maps each key to exactly the versions of
the items with that key, in order, with no duplicate or extraneous keys;
`requestFwdPropagation` sends that request built from `AllDirty()` and
`requestBackPropagation` from `AllCommitted()`. -/
theorem C4_propagate_request_exact :
    (∀ (items : List Item) (k : String),
      lookupReq (propagateRequestFromItems items) k =
        (items.filter (fun it => decide (it.key = k))).map Item.version) ∧
    (∀ items : List Item,
      ((propagateRequestFromItems items).map Prod.fst).Nodup) ∧
    (∀ (items : List Item) (p : String × List Nat),
      p ∈ propagateRequestFromItems items → p.1 ∈ items.map Item.key) ∧
    (∀ (env : Env) (d : List Item), env.allDirty = .ok d →
      ∃ rest, (requestFwdPropagation env).2 =
        Event.callFwdPropagate (propagateRequestFromItems d) :: rest) ∧
    (∀ (env : Env) (c : List Item), env.allCommitted = .ok c →
      ∃ rest, (requestBackPropagation env).2 =
        Event.callBackPropagate (propagateRequestFromItems c) :: rest) := by
  refine ⟨?_, ?_, ?_, ?_, ?_⟩
  · intro items k
    unfold propagateRequestFromItems
    rw [lookupReq_foldl]
    simp [lookupReq]
  · intro items
    exact nodupKeys_foldl items [] (by simp)
  · intro items p hp
    have hx := mem_keys_foldl items [] p.1
      (List.mem_map_of_mem Prod.fst hp)
    rcases hx with hx | hx
    · simp at hx
    · exact hx
  · intro env d hd
    unfold requestFwdPropagation
    rw [hd]
    cases hc : env.fwdCall (propagateRequestFromItems d) with
    | error er => exact ⟨[], by simp [hc]⟩
    | ok reply =>
      exact ⟨(writePropagated env.write reply).2, by simp [hc]⟩
  · intro env c hc0
    unfold requestBackPropagation
    rw [hc0]
    cases hc : env.backCall (propagateRequestFromItems c) with
    | error er => exact ⟨[], by simp [hc]⟩
    | ok reply =>
      exact ⟨(commitPropagated env.commit reply).2, by simp [hc]⟩

theorem writeItems_ok_mem (w : String → List Nat → Nat → Except String Unit)
    (key : String) :
    ∀ its, (writeItems w key its).1 = .ok () →
      ∀ it ∈ its,
        Event.storeWrite key it.value it.version ∈ (writeItems w key its).2 := by
  intro its
  induction its with
  | nil => intro _ it hit; simp at hit
  | cons it0 rest ih =>
    intro hok it hit
    cases h : w key it0.value it0.version with
    | error er => simp [writeItems, h] at hok
    | ok u =>
      simp only [writeItems, h] at hok ⊢
      rcases List.mem_cons.mp hit with hit2 | hit2
      · subst hit2; exact List.mem_cons_self _ _
      · exact List.mem_cons_of_mem _ (ih hok it hit2)

theorem writePropagated_ok_mem
    (w : String → List Nat → Nat → Except String Unit) :
    ∀ reply, (writePropagated w reply).1 = .ok () →
      ∀ (k : String) (its : List PItem), (k, its) ∈ reply → ∀ it ∈ its,
        Event.storeWrite k it.value it.version ∈ (writePropagated w reply).2 := by
  intro reply
  induction reply with
  | nil => intro _ k its hk; simp at hk
  | cons p rest ih =>
    intro hok k its hk it hit
    obtain ⟨k0, its0⟩ := p
    cases h : (writeItems w k0 its0).1 with
    | error er => simp [writePropagated, h] at hok
    | ok u =>
      simp only [writePropagated, h] at hok ⊢
      rcases List.mem_cons.mp hk with hk2 | hk2
      · have hk4 : k = k0 := congrArg Prod.fst hk2
        have hits4 : its = its0 := congrArg Prod.snd hk2
        subst hk4; subst hits4
        exact List.mem_append_left _ (writeItems_ok_mem w k its (by rw [h]) it hit)
      · exact List.mem_append_right _ (ih hok k its hk2 it hit)

theorem commitItems_ok_mem (c : String → Nat → Except String Unit)
    (key : String) :
    ∀ its, (commitItems c key its).1 = .ok () →
      ∀ it ∈ its,
        Event.storeCommit key it.version ∈ (commitItems c key its).2 := by
  intro its
  induction its with
  | nil => intro _ it hit; simp at hit
  | cons it0 rest ih =>
    intro hok it hit
    cases h : c key it0.version with
    | error er => simp [commitItems, h] at hok
    | ok u =>
      simp only [commitItems, h] at hok ⊢
      rcases List.mem_cons.mp hit with hit2 | hit2
      · subst hit2; exact List.mem_cons_self _ _
      · exact List.mem_cons_of_mem _ (ih hok it hit2)

theorem commitPropagated_ok_mem (c : String → Nat → Except String Unit) :
    ∀ reply, (commitPropagated c reply).1 = .ok () →
      ∀ (k : String) (its : List PItem), (k, its) ∈ reply → ∀ it ∈ its,
        Event.storeCommit k it.version ∈ (commitPropagated c reply).2 := by
  intro reply
  induction reply with
  | nil => intro _ k its hk; simp at hk
  | cons p rest ih =>
    intro hok k its hk it hit
    obtain ⟨k0, its0⟩ := p
    cases h : (commitItems c k0 its0).1 with
    | error er => simp [commitPropagated, h] at hok
    | ok u =>
      simp only [commitPropagated, h] at hok ⊢
      rcases List.mem_cons.mp hk with hk2 | hk2
      · have hk4 : k = k0 := congrArg Prod.fst hk2
        have hits4 : its = its0 := congrArg Prod.snd hk2
        subst hk4; subst hits4
        exact List.mem_append_left _ (commitItems_ok_mem c k its (by rw [h]) it hit)
      · exact List.mem_append_right _ (ih hok k its hk2 it hit)

/-- C5: when the forward-propagation round trip succeeds with reply
`reply` and no store write fails, every item of `reply` has been written
to the store via `Store.Write(key, value, version)`. -/
theorem C5_fwd_writes_all (env : Env) (d : List Item)
    (reply : PropagateResponse)
    (hd : env.allDirty = .ok d)
    (hc : env.fwdCall (propagateRequestFromItems d) = .ok reply)
    (hok : (requestFwdPropagation env).1 = .ok ()) :
    ∀ (k : String) (its : List PItem), (k, its) ∈ reply → ∀ it ∈ its,
      Event.storeWrite k it.value it.version ∈ (requestFwdPropagation env).2 := by
  intro k its hk it hit
  simp only [requestFwdPropagation, hd, hc] at hok ⊢
  exact List.mem_cons_of_mem _
    (writePropagated_ok_mem env.write reply hok k its hk it hit)

/-- C6: when the back-propagation round trip succeeds with reply `reply`
and no store commit fails, every item of `reply` has been committed to the
store via `Store.Commit(key, version)`. -/
theorem C6_back_commits_all (env : Env) (c : List Item)
    (reply : PropagateResponse)
    (hcm : env.allCommitted = .ok c)
    (hc : env.backCall (propagateRequestFromItems c) = .ok reply)
    (hok : (requestBackPropagation env).1 = .ok ()) :
    ∀ (k : String) (its : List PItem), (k, its) ∈ reply → ∀ it ∈ its,
      Event.storeCommit k it.version ∈ (requestBackPropagation env).2 := by
  intro k its hk it hit
  simp only [requestBackPropagation, hcm, hc] at hok ⊢
  exact List.mem_cons_of_mem _
    (commitPropagated_ok_mem env.commit reply hok k its hk it hit)

theorem writeItems_allOk (w : String → List Nat → Nat → Except String Unit)
    (key : String) :
    ∀ its, (∀ it ∈ its, w key it.value it.version = .ok ()) →
      writeItems w key its = (.ok (), its.map (writeEvt key)) := by
  intro its
  induction its with
  | nil => intro _; rfl
  | cons it rest ih =>
    intro h
    have h0 := h it (List.mem_cons_self _ _)
    simp [writeItems, h0,
      ih (fun x hx => h x (List.mem_cons_of_mem _ hx)), writeEvt]

theorem writeItems_fails (w : String → List Nat → Nat → Except String Unit)
    (key : String) :
    ∀ (a : List PItem) (b : PItem) (cs : List PItem) (e : String),
      (∀ it ∈ a, w key it.value it.version = .ok ()) →
      w key b.value b.version = .error e →
      writeItems w key (a ++ b :: cs) =
        (.error e, a.map (writeEvt key) ++ [writeEvt key b]) := by
  intro a
  induction a with
  | nil => intro b cs e _ hb; simp [writeItems, hb, writeEvt]
  | cons it rest ih =>
    intro b cs e ha hb
    have h0 := ha it (List.mem_cons_self _ _)
    simp [writeItems, h0,
      ih b cs e (fun x hx => ha x (List.mem_cons_of_mem _ hx)) hb, writeEvt]

theorem writePropagated_allOkPre
    (w : String → List Nat → Nat → Except String Unit) :
    ∀ (pre rest : PropagateResponse),
      (∀ p ∈ pre, ∀ it ∈ p.2, w p.1 it.value it.version = .ok ()) →
      writePropagated w (pre ++ rest) =
        ((writePropagated w rest).1,
          writeEventsOf pre ++ (writePropagated w rest).2) := by
  intro pre
  induction pre with
  | nil => intro rest _; simp [writeEventsOf]
  | cons p pre2 ih =>
    intro rest h
    obtain ⟨k0, its0⟩ := p
    have h0 : writeItems w k0 its0 = (.ok (), its0.map (writeEvt k0)) :=
      writeItems_allOk w k0 its0 (h (k0, its0) (List.mem_cons_self _ _))
    simp [writePropagated, h0,
      ih rest (fun q hq => h q (List.mem_cons_of_mem _ hq)),
      writeEventsOf, List.append_assoc]

theorem commitItems_allOk (c : String → Nat → Except String Unit)
    (key : String) :
    ∀ its, (∀ it ∈ its, c key it.version = .ok ()) →
      commitItems c key its = (.ok (), its.map (commitEvt key)) := by
  intro its
  induction its with
  | nil => intro _; rfl
  | cons it rest ih =>
    intro h
    have h0 := h it (List.mem_cons_self _ _)
    simp [commitItems, h0,
      ih (fun x hx => h x (List.mem_cons_of_mem _ hx)), commitEvt]

theorem commitItems_fails (c : String → Nat → Except String Unit)
    (key : String) :
    ∀ (a : List PItem) (b : PItem) (cs : List PItem) (e : String),
      (∀ it ∈ a, c key it.version = .ok ()) →
      c key b.version = .error e →
      commitItems c key (a ++ b :: cs) =
        (.error e, a.map (commitEvt key) ++ [commitEvt key b]) := by
  intro a
  induction a with
  | nil => intro b cs e _ hb; simp [commitItems, hb, commitEvt]
  | cons it rest ih =>
    intro b cs e ha hb
    have h0 := ha it (List.mem_cons_self _ _)
    simp [commitItems, h0,
      ih b cs e (fun x hx => ha x (List.mem_cons_of_mem _ hx)) hb, commitEvt]

theorem commitPropagated_allOkPre (c : String → Nat → Except String Unit) :
    ∀ (pre rest : PropagateResponse),
      (∀ p ∈ pre, ∀ it ∈ p.2, c p.1 it.version = .ok ()) →
      commitPropagated c (pre ++ rest) =
        ((commitPropagated c rest).1,
          commitEventsOf pre ++ (commitPropagated c rest).2) := by
  intro pre
  induction pre with
  | nil => intro rest _; simp [commitEventsOf]
  | cons p pre2 ih =>
    intro rest h
    obtain ⟨k0, its0⟩ := p
    have h0 : commitItems c k0 its0 = (.ok (), its0.map (commitEvt k0)) :=
      commitItems_allOk c k0 its0 (h (k0, its0) (List.mem_cons_self _ _))
    simp [commitPropagated, h0,
      ih rest (fun q hq => h q (List.mem_cons_of_mem _ hq)),
      commitEventsOf, List.append_assoc]

/-- C9: applying a propagate reply is not atomic. If a `Store.Write`
(in `writePropagated`) or a `Store.Commit` (in `commitPropagated`) fails at
some item, the function returns that error immediately; the exact effect
trace consists of the writes/commits of all items before the failing one in
iteration order plus the failing attempt, and nothing is applied for the
remaining items — there is no rollback. -/
theorem C9_partial_application :
    (∀ (w : String → List Nat → Nat → Except String Unit)
        (pre : PropagateResponse) (k : String) (a : List PItem) (b : PItem)
        (cs : List PItem) (post : PropagateResponse) (e : String),
      (∀ p ∈ pre, ∀ it ∈ p.2, w p.1 it.value it.version = .ok ()) →
      (∀ it ∈ a, w k it.value it.version = .ok ()) →
      w k b.value b.version = .error e →
      writePropagated w (pre ++ (k, a ++ b :: cs) :: post) =
        (.error e,
          writeEventsOf pre ++ (a.map (writeEvt k) ++ [writeEvt k b]))) ∧
    (∀ (c : String → Nat → Except String Unit)
        (pre : PropagateResponse) (k : String) (a : List PItem) (b : PItem)
        (cs : List PItem) (post : PropagateResponse) (e : String),
      (∀ p ∈ pre, ∀ it ∈ p.2, c p.1 it.version = .ok ()) →
      (∀ it ∈ a, c k it.version = .ok ()) →
      c k b.version = .error e →
      commitPropagated c (pre ++ (k, a ++ b :: cs) :: post) =
        (.error e,
          commitEventsOf pre ++ (a.map (commitEvt k) ++ [commitEvt k b]))) := by
  constructor
  · intro w pre k a b cs post e hpre ha hb
    rw [writePropagated_allOkPre w pre _ hpre]
    have hfail := writeItems_fails w k a b cs e ha hb
    simp [writePropagated, hfail]
  · intro c pre k a b cs post e hpre ha hb
    rw [commitPropagated_allOkPre c pre _ hpre]
    have hfail := commitItems_fails c k a b cs e ha hb
    simp [commitPropagated, hfail]

theorem connectToNode_latest (env : Env) (s : NodeState) (path : String)
    (pos : NeighborPos) :
    ((connectToNode env s path pos).2.2).latest = s.latest := by
  cases h : env.connect path <;> simp [connectToNode, h]

theorem connectToNode_tail_of_prev (env : Env) (s : NodeState)
    (path : String) :
    ((connectToNode env s path NeighborPos.prev).2.2).neighbors.tail =
      s.neighbors.tail := by
  cases h : env.connect path <;> simp [connectToNode, h, setNbr]

theorem handleTail_latest (env : Env) (reply : NodeMeta) (s : NodeState) :
    ((handleTail env reply s).2.2).latest = s.latest := by
  unfold handleTail
  split
  · rfl
  · exact connectToNode_latest env s reply.tail NeighborPos.tail

theorem handlePrev_latest (env : Env) (reply : NodeMeta) (s : NodeState) :
    ((handlePrev env reply s).2.2).latest = s.latest := by
  unfold handlePrev
  split
  · split
    · next e tr s2 heq =>
      have h4 := congrArg
        (fun t : Except String Unit × List Event × NodeState => t.2.2.latest)
        heq
      dsimp only at h4 ⊢
      rw [connectToNode_latest] at h4
      exact h4.symm
    · next u tr s2 heq =>
      have h4 := congrArg
        (fun t : Except String Unit × List Event × NodeState => t.2.2.latest)
        heq
      dsimp only at h4 ⊢
      rw [connectToNode_latest] at h4
      exact h4.symm
  · split
    · split
      · rfl
      · rfl
    · rfl

theorem handlePrev_tail (env : Env) (reply : NodeMeta) (s : NodeState) :
    ((handlePrev env reply s).2.2).neighbors.tail = s.neighbors.tail := by
  unfold handlePrev
  split
  · split
    · next e tr s2 heq =>
      have h4 := congrArg
        (fun t : Except String Unit × List Event × NodeState =>
          t.2.2.neighbors.tail)
        heq
      dsimp only at h4 ⊢
      rw [connectToNode_tail_of_prev] at h4
      exact h4.symm
    · next u tr s2 heq =>
      have h4 := congrArg
        (fun t : Except String Unit × List Event × NodeState =>
          t.2.2.neighbors.tail)
        heq
      dsimp only at h4 ⊢
      rw [connectToNode_tail_of_prev] at h4
      exact h4.symm
  · split
    · split
      · rfl
      · rfl
    · rfl

theorem ConnectToCoordinator_latest (env : Env) (s : NodeState) :
    ((ConnectToCoordinator env s).2.2).latest = s.latest := by
  unfold ConnectToCoordinator
  cases h1 : env.connect s.cdrPath with
  | error e => rfl
  | ok cc =>
    cases h2 : env.addNode with
    | error e => rfl
    | ok reply =>
      dsimp only
      split
      · rw [handleTail_latest]
      · rw [handlePrev_latest, handleTail_latest]

theorem requestFwd_trace_head (env : Env) (d : List Item)
    (hd : env.allDirty = .ok d) :
    ∃ rest, (requestFwdPropagation env).2 =
      Event.callFwdPropagate (propagateRequestFromItems d) :: rest := by
  unfold requestFwdPropagation
  rw [hd]
  cases hc : env.fwdCall (propagateRequestFromItems d) with
  | error er => exact ⟨[], by simp [hc]⟩
  | ok reply => exact ⟨(writePropagated env.write reply).2, by simp [hc]⟩

theorem fullPropagate_hasFwdCall (env : Env) (d : List Item)
    (hd : env.allDirty = .ok d) :
    hasFwdCall (fullPropagate env).2 = true := by
  obtain ⟨rest, hr⟩ := requestFwd_trace_head env d hd
  unfold fullPropagate
  cases hf : (requestFwdPropagation env).1 <;>
    simp [hf, hasFwdCall, hr, isFwdCallEvt]

theorem connectToNode_noFwdCall (env : Env) (s : NodeState) (path : String)
    (pos : NeighborPos) :
    hasFwdCall (connectToNode env s path pos).2.1 = false := by
  cases h : env.connect path with
  | error e => simp [connectToNode, h, hasFwdCall, isFwdCallEvt]
  | ok client =>
    cases hcl : (getNbr s.neighbors pos).client <;>
      simp [connectToNode, h, hcl, hasFwdCall, isFwdCallEvt]

theorem handlePrev_fwdCall_iff (env : Env) (reply : NodeMeta)
    (s : NodeState) (d : List Item) (hd : env.allDirty = .ok d) :
    hasFwdCall (handlePrev env reply s).2.1 = true ↔
      (reply.prev ≠ "" ∧ ∃ pc, env.connect reply.prev = .ok pc) := by
  unfold handlePrev
  by_cases hp : reply.prev ≠ ""
  · rw [if_pos hp]
    cases hcn : env.connect reply.prev with
    | error e =>
      simp [connectToNode, hcn, hasFwdCall, isFwdCallEvt, hp]
    | ok pc =>
      have hf := fullPropagate_hasFwdCall env d hd
      refine iff_of_true ?_ ⟨hp, pc, rfl⟩
      cases hcl : (getNbr s.neighbors NeighborPos.prev).client <;>
        · simp [connectToNode, hcn, hcl, hasFwdCall, isFwdCallEvt,
            List.any_append, List.any_eq_true]
          simp only [hasFwdCall, isFwdCallEvt, List.any_eq_true] at hf
          exact hf
  · rw [if_neg hp]
    split
    · split <;> simp [hasFwdCall, isFwdCallEvt, hp]
    · simp [hasFwdCall, isFwdCallEvt, hp]

theorem handleTail_isTail (env : Env) (reply : NodeMeta) (s : NodeState)
    (h : reply.isTail = true) :
    handleTail env reply s = (.ok (), [], s) := by
  simp [handleTail, h]

theorem handleTail_notTail (env : Env) (reply : NodeMeta) (s : NodeState)
    (h : reply.isTail = false) :
    handleTail env reply s = connectToNode env s reply.tail NeighborPos.tail := by
  simp [handleTail, h]

/-- C2, amended: during coordinator connection the catch-up protocol is
run if and only if the reported predecessor path is non-empty and
connecting to it succeeds — regardless of whether it differs from the
predecessor already connected. -/
theorem C2_catchup_iff_prev_nonempty (env : Env) (s : NodeState)
    (reply : NodeMeta) (cc : Nat) (d : List Item)
    (h1 : env.connect s.cdrPath = .ok cc)
    (h2 : env.addNode = .ok reply)
    (hd : env.allDirty = .ok d)
    (htail : reply.isTail = false → ∃ tc, env.connect reply.tail = .ok tc) :
    (hasFwdCall (ConnectToCoordinator env s).2.1 = true ↔
      (reply.prev ≠ "" ∧ ∃ pc, env.connect reply.prev = .ok pc)) := by
  unfold ConnectToCoordinator
  rw [h1]
  dsimp only
  rw [h2]
  dsimp only
  cases hit : reply.isTail with
  | true =>
    rw [handleTail_isTail env reply _ hit]
    dsimp only
    simp only [hasFwdCall, isFwdCallEvt, List.any_append, List.any_cons,
      List.any_nil]
    simpa [hasFwdCall] using handlePrev_fwdCall_iff env reply _ d hd
  | false =>
    obtain ⟨tc, htc⟩ := htail hit
    rw [handleTail_notTail env reply _ hit]
    simp only [connectToNode, htc, getNbr, setNbr]
    simp only [hasFwdCall, isFwdCallEvt, List.any_append, List.any_cons,
      List.any_nil]
    simpa [hasFwdCall] using handlePrev_fwdCall_iff env reply _ d hd

/-- C2, counterexample: the coordinator reports the same predecessor path
`p` that is already connected (so the predecessor did not change), yet the
catch-up protocol is run — refuting "run iff the predecessor changed and is
non-empty". -/
theorem C2_runs_catchup_with_unchanged_prev :
    (getNbr sC2.neighbors NeighborPos.prev).path = "p" ∧
    envC2.addNode = .ok ⟨false, false, "t", "p"⟩ ∧
    hasFwdCall (ConnectToCoordinator envC2 sC2).2.1 = true := by
  decide

/-- C2, witness for the amended theorem at a concrete input. -/
theorem C2_witness :
    hasFwdCall (ConnectToCoordinator envC2 sC2).2.1 = true ↔
      (("p" : String) ≠ "" ∧ ∃ pc, envC2.connect "p" = .ok pc) :=
  C2_catchup_iff_prev_nonempty envC2 sC2 ⟨false, false, "t", "p"⟩ 1 [] rfl rfl
    rfl (fun _ => ⟨1, rfl⟩)

/-- C3, amended: on startup the `latest` map is created empty by `New`, and
`ConnectToCoordinator` leaves it unchanged — it is not reconstructed from
the store by enumeration. -/
theorem C3_latest_not_reconstructed (p c : String) (env : Env) :
    (New p c).latest = [] ∧
    ((ConnectToCoordinator env (New p c)).2.2).latest = [] :=
  ⟨rfl, (ConnectToCoordinator_latest env (New p c)).trans rfl⟩

/-- C3, counterexample: the store holds a dirty version 3 of key `k`, yet
after `New` and `ConnectToCoordinator` the value of `latest` at key `k` is 0, not
the maximum version in `AllDirty ∪ AllCommitted`. -/
theorem C3_counterexample :
    envC3.allDirty = .ok dirtyC3 ∧
    envC3.allCommitted = .ok [] ∧
    maxVersionFor dirtyC3 [] "k" = 3 ∧
    latestOf ((ConnectToCoordinator envC3 (New "a" "c")).2.2) "k" = 0 ∧
    latestOf ((ConnectToCoordinator envC3 (New "a" "c")).2.2) "k" ≠
      maxVersionFor dirtyC3 [] "k" := by
  decide

/-- C7, amended: `connectToNode` closes the previously installed connection
at the position before installing the new record, and the registry holds
exactly one record per position. (The tail record installed directly in
`ConnectToCoordinator` is the exception shown by the counterexample.) -/
theorem C7_connectToNode_closes_before_install (env : Env) (s : NodeState)
    (path : String) (pos : NeighborPos) (c id : Nat)
    (hc : env.connect path = .ok c)
    (hid : (getNbr s.neighbors pos).client = some id) :
    connectToNode env s path pos =
      (.ok (), [Event.connect path, Event.closeClient id],
        { s with neighbors := setNbr s.neighbors pos ⟨some c, path⟩ }) ∧
    ∀ (ns : Neighbors) (nb : Neighbor), getNbr (setNbr ns pos nb) pos = nb := by
  constructor
  · simp [connectToNode, hc, hid]
  · intro ns nb
    cases pos <;> rfl

/-- C7, counterexample: a node with an open tail connection (handle 7)
reconnects to the coordinator; the tail record is replaced by
`n.neighbors[NeighborPosTail] = neighbor{path: reply.Tail}` but the old
tail connection is never closed. -/
theorem C7_tail_replaced_without_close :
    (getNbr sC7.neighbors NeighborPos.tail).client = some 7 ∧
    ((ConnectToCoordinator envC7 sC7).2.2).neighbors.tail = ⟨none, "t2"⟩ ∧
    Event.closeClient 7 ∉ (ConnectToCoordinator envC7 sC7).2.1 := by
  decide

/-- C7, witness for the amended theorem at a concrete input. -/
theorem C7_witness :
    connectToNode envC7 sC7 "t3" NeighborPos.tail =
      (.ok (), [Event.connect "t3", Event.closeClient 7],
        { sC7 with
          neighbors := setNbr sC7.neighbors NeighborPos.tail ⟨some 1, "t3"⟩ }) :=
  (C7_connectToNode_closes_before_install envC7 sC7 "t3" NeighborPos.tail
    1 7 rfl rfl).1

/-- C8, amended: when `ConnectToCoordinator` fails inside `ListenAndServe`,
the HTTP/RPC server is shut down and `ListenAndServe` returns a non-nil
error — but that error is either the coordinator error or
`http.ErrServerClosed`, whichever goroutine `errgroup` records first. -/
theorem C8_shutdown_and_nonnil_error (env : Env) (s : NodeState)
    (sf : Bool) (e : String)
    (h : (ConnectToCoordinator env s).1 = .error e) :
    (ListenAndServe env s sf).2 = true ∧
    ((ListenAndServe env s sf).1 = some (.error e) ∨
      (ListenAndServe env s sf).1 = some (.error ErrServerClosed)) := by
  unfold ListenAndServe
  rw [h]
  cases sf <;> simp

/-- C8, counterexample: with the server goroutine recording first — the
usual schedule, since `Shutdown` returns only after the listener closes —
`ListenAndServe` returns `http.ErrServerClosed`, not the
`ConnectToCoordinator` error. -/
theorem C8_returns_serverClosed_not_connect_error :
    (ConnectToCoordinator envC8 (New "a" "c")).1 = .error "boom" ∧
    (ListenAndServe envC8 (New "a" "c") true).1 =
      some (.error ErrServerClosed) ∧
    ErrServerClosed ≠ "boom" ∧
    (ListenAndServe envC8 (New "a" "c") true).2 = true := by
  refine ⟨rfl, rfl, ?_, rfl⟩
  decide

/-- C8, witness for the amended theorem at a concrete input. -/
theorem C8_witness :
    (ListenAndServe envC8 (New "a" "c") false).2 = true ∧
    ((ListenAndServe envC8 (New "a" "c") false).1 = some (.error "boom") ∨
      (ListenAndServe envC8 (New "a" "c") false).1 =
        some (.error ErrServerClosed)) :=
  C8_shutdown_and_nonnil_error envC8 (New "a" "c") false "boom" rfl

/-- C10: after `ConnectToCoordinator` installs role bits, the tail record
holds the reported tail path with no connection handle when the node is the
tail, and holds the opened connection handle exactly when it is not. -/
theorem C10_tail_record (env : Env) (s : NodeState) (reply : NodeMeta)
    (cc : Nat)
    (h1 : env.connect s.cdrPath = .ok cc)
    (h2 : env.addNode = .ok reply) :
    (reply.isTail = true →
      ((ConnectToCoordinator env s).2.2).neighbors.tail =
        ⟨none, reply.tail⟩) ∧
    (∀ tc, reply.isTail = false → env.connect reply.tail = .ok tc →
      ((ConnectToCoordinator env s).2.2).neighbors.tail =
        ⟨some tc, reply.tail⟩) := by
  constructor
  · intro hit
    unfold ConnectToCoordinator
    rw [h1]
    dsimp only
    rw [h2]
    dsimp only
    rw [handleTail_isTail env reply _ hit]
    dsimp only
    rw [handlePrev_tail]
    rfl
  · intro tc hit htc
    unfold ConnectToCoordinator
    rw [h1]
    dsimp only
    rw [h2]
    dsimp only
    rw [handleTail_notTail env reply _ hit]
    simp only [connectToNode, htc, getNbr, setNbr]
    rw [handlePrev_tail]

/-- C10, witness at concrete inputs for both the tail and non-tail cases. -/
theorem C10_witness :
    ((ConnectToCoordinator envC10 (New "a" "c")).2.2).neighbors.tail =
      (⟨none, "t"⟩ : Neighbor) ∧
    ((ConnectToCoordinator envC10b (New "a" "c")).2.2).neighbors.tail =
      (⟨some 4, "t"⟩ : Neighbor) :=
  ⟨(C10_tail_record envC10 (New "a" "c") ⟨true, true, "t", ""⟩ 4 rfl rfl).1
      rfl,
    (C10_tail_record envC10b (New "a" "c") ⟨false, false, "t", ""⟩ 4 rfl
      rfl).2 4 rfl rfl⟩

/-- C1, witness at a concrete environment in which forward propagation
fails. -/
theorem C1_witness :
    ∃ tb : List Event,
      (fullPropagate envC1w).2 = (requestFwdPropagation envC1w).2 ++ tb ∧
      (∀ e ∈ (requestFwdPropagation envC1w).2, isBackEvent e = false) ∧
      (∀ e ∈ tb, isFwdEvent e = false) ∧
      (∀ er, (requestFwdPropagation envC1w).1 = .error er → tb = []) :=
  C1_fullPropagate_order envC1w

/-- C4, witness at concrete items with a repeated key. -/
theorem C4_witness :
    lookupReq (propagateRequestFromItems itemsC4) "k" =
      (itemsC4.filter (fun it => decide (it.key = "k"))).map Item.version ∧
    ∃ rest, (requestFwdPropagation envC4w).2 =
      Event.callFwdPropagate (propagateRequestFromItems itemsC4) :: rest :=
  ⟨C4_propagate_request_exact.1 itemsC4 "k",
    C4_propagate_request_exact.2.2.2.1 envC4w itemsC4 rfl⟩

/-- C5, witness: the single reply item is written to the store. -/
theorem C5_witness :
    Event.storeWrite "k" [9] 1 ∈ (requestFwdPropagation envC5w).2 :=
  C5_fwd_writes_all envC5w [] replyC5 rfl rfl rfl "k" [⟨1, false, [9]⟩]
    (by decide) ⟨1, false, [9]⟩ (by decide)

/-- C6, witness: the single reply item is committed to the store. -/
theorem C6_witness :
    Event.storeCommit "k" 1 ∈ (requestBackPropagation envC6w).2 :=
  C6_back_commits_all envC6w [] replyC5 rfl rfl rfl "k" [⟨1, false, [9]⟩]
    (by decide) ⟨1, false, [9]⟩ (by decide)

/-- C9, witness: with a store failing at version 2, version 1 is applied,
the error is returned, and version 3 is never attempted. -/
theorem C9_witness :
    writePropagated wC9
        ([] ++ ("k", [(⟨1, false, [1]⟩ : PItem)] ++ ⟨2, false, [2]⟩ ::
          [⟨3, false, [3]⟩]) :: []) =
      (.error "bad",
        writeEventsOf [] ++
          ([(⟨1, false, [1]⟩ : PItem)].map (writeEvt "k") ++
            [writeEvt "k" ⟨2, false, [2]⟩])) ∧
    commitPropagated cC9
        ([] ++ ("k", [(⟨1, false, [1]⟩ : PItem)] ++ ⟨2, false, [2]⟩ ::
          [⟨3, false, [3]⟩]) :: []) =
      (.error "bad",
        commitEventsOf [] ++
          ([(⟨1, false, [1]⟩ : PItem)].map (commitEvt "k") ++
            [commitEvt "k" ⟨2, false, [2]⟩])) :=
  ⟨C9_partial_application.1 wC9 [] "k" [⟨1, false, [1]⟩] ⟨2, false, [2]⟩
      [⟨3, false, [3]⟩] [] "bad" (by simp)
      (by intro it hit; rw [List.mem_singleton] at hit; subst hit; rfl) rfl,
    C9_partial_application.2 cC9 [] "k" [⟨1, false, [1]⟩] ⟨2, false, [2]⟩
      [⟨3, false, [3]⟩] [] "bad" (by simp)
      (by intro it hit; rw [List.mem_singleton] at hit; subst hit; rfl) rfl⟩

end GoCraq
